import Mathlib

/-!
Verification development for the LAN Racer multiplayer game.

Shallow embedding of the authoritative game server
(`src/projects/server_test_11.py`, class `GameServer`) and of the client
netcode (`src/projects/client_test_9.py`).  Python floats are modelled as
exact rationals (ℚ), Python ints as ℤ/ℕ, the `players` dict (keyed by the
client address, insertion ordered) as an association list, and each
mutating method as a pure function on the corresponding state.  Wall-clock
reads (`time.time()`) are passed in explicitly as a `now`/`current_time`
argument, exactly where the source reads the clock.
-/

namespace LanRacer

/-! ## Server constants (from `GameServer.__init__`) -/

def TICK_RATE : ℚ := 60

def BASE_GAME_DURATION : ℚ := 40

def MAX_SCORE : ℚ := 300

def HEARTBEAT_TIMEOUT : ℚ := 5

def LANE_CHANGE_DURATION : ℚ := 3/10

def VERTICAL_SPEED : ℚ := 200

def MIN_PLAYER_Y : ℚ := 100

def MAX_PLAYER_Y : ℚ := 600

def PLAYER_Y : ℚ := 300

def BLINK_DURATION : ℚ := 3/2

def COLLISION_RESET_TIME : ℚ := 3

/-- `POINTS_PER_TICK = MAX_SCORE / (GAME_DURATION * TICK_RATE)`, computed once
in `__init__` while `GAME_DURATION` still equals `BASE_GAME_DURATION`. -/
def POINTS_PER_TICK : ℚ := MAX_SCORE / (BASE_GAME_DURATION * TICK_RATE)

/-- `LANE_X = [300, 500, 700]`.  The source indexes this Python list with the
player's lane; lanes outside `{0,1,2}` never occur (see the C8 theorem), so
the junk value `0` for other indices is never consulted. -/
def LANE_X (lane : ℤ) : ℚ :=
  if lane = 0 then 300 else if lane = 1 then 500 else if lane = 2 then 700 else 0

/-! ## Data model -/

/-- The `Player` dataclass. -/
structure Player where
  name : String
  lane : ℤ
  target_lane : ℤ
  score : ℚ
  blink : ℚ
  last_heartbeat : ℚ
  x : ℚ
  y : ℚ
  id : ℕ
  finished : Bool
  move_progress : ℚ
  consecutive_collisions : ℕ
  last_collision_time : ℚ
  vertical_speed : ℚ
  target_y : ℚ
deriving DecidableEq, Repr

/-- The `Obstacle` dataclass. -/
structure Obstacle where
  lane : ℤ
  y : ℚ
  x : ℚ
  id : ℚ
  type : String
  width : ℚ
  height : ℚ
  speed : ℚ
  penalty : ℤ
  color : String
deriving DecidableEq, Repr

/-- Python `int(q)` on a real value: truncation toward zero. -/
def py_int (q : ℚ) : ℤ := if q < 0 then ⌈q⌉ else ⌊q⌋

/-! ## Collision detection and scoring (`check_collision`, `update_collisions`,
`update_scores`) -/

/-- `GameServer.check_collision`: axis-aligned overlap of the fixed 60×80
player box centered on `(player.x, player.y)` with the obstacle box shrunk by
a 5-pixel inward padding. -/
def check_collision (player : Player) (obstacle : Obstacle) : Bool :=
  let player_left := player.x - 30
  let player_right := player.x + 30
  let player_top := player.y - 40
  let player_bottom := player.y + 40
  let padding : ℚ := 5
  let obstacle_left := obstacle.x - obstacle.width / 2 + padding
  let obstacle_right := obstacle.x + obstacle.width / 2 - padding
  let obstacle_top := obstacle.y - obstacle.height / 2 + padding
  let obstacle_bottom := obstacle.y + obstacle.height / 2 - padding
  decide (obstacle_left < player_right ∧ player_left < obstacle_right ∧
          obstacle_top < player_bottom ∧ player_top < obstacle_bottom)

/-- Invulnerability test in `update_collisions`:
`time_since_blink < BLINK_DURATION`. -/
def is_invulnerable (current_time : ℚ) (player : Player) : Bool :=
  decide (current_time - player.blink < BLINK_DURATION)

/-- Lazy consecutive-collision reset in `update_collisions`:
`if time_since_last_collision > COLLISION_RESET_TIME: consecutive_collisions = 0`. -/
def reset_consecutive (current_time : ℚ) (player : Player) : Player :=
  if COLLISION_RESET_TIME < current_time - player.last_collision_time then
    { player with consecutive_collisions := 0 }
  else player

/-- The collision branch of `update_collisions`: penalty computation
(`int(base * (1 + 0.3*consecutive))` when in a streak), score clamp at 0,
both timestamps set to `current_time`, counter incremented. -/
def apply_penalty (current_time : ℚ) (obstacle : Obstacle) (player : Player) : Player :=
  let base_penalty : ℤ :=
    if 0 < player.consecutive_collisions then
      py_int ((obstacle.penalty : ℚ) *
        (1 + (player.consecutive_collisions : ℚ) * (3/10)))
    else obstacle.penalty
  { player with
      score := max 0 (player.score - (base_penalty : ℚ)),
      blink := current_time,
      last_collision_time := current_time,
      consecutive_collisions := player.consecutive_collisions + 1 }

/-- Inner player loop of `update_collisions` for one obstacle: every visited
player gets the lazy counter reset; invulnerable or finished players are
skipped; the first player that overlaps in the same lane takes the penalty and
the loop `break`s (players after it are left untouched).  Returns the updated
player list and whether this obstacle hit someone. -/
def collide_obstacle (current_time : ℚ) (obs : Obstacle) :
    List Player → List Player × Bool
  | [] => ([], false)
  | player :: rest =>
    if is_invulnerable current_time player ||
        (reset_consecutive current_time player).finished then
      ((reset_consecutive current_time player) ::
        (collide_obstacle current_time obs rest).1,
       (collide_obstacle current_time obs rest).2)
    else if check_collision (reset_consecutive current_time player) obs &&
        decide (obs.lane = (reset_consecutive current_time player).lane) then
      (apply_penalty current_time obs (reset_consecutive current_time player) :: rest,
       true)
    else
      ((reset_consecutive current_time player) ::
        (collide_obstacle current_time obs rest).1,
       (collide_obstacle current_time obs rest).2)

/-- `GameServer.update_collisions` (body, after its `start_time` guard):
the obstacle loop threads the player list, collects the ids of obstacles that
hit someone, and finally filters those obstacles out. -/
def update_collisions (current_time : ℚ) (players : List Player)
    (obstacles : List Obstacle) : List Player × List Obstacle :=
  let result := obstacles.foldl
    (fun acc obs =>
      ((collide_obstacle current_time obs acc.1).1,
       if (collide_obstacle current_time obs acc.1).2 then obs.id :: acc.2 else acc.2))
    (players, [])
  (result.1,
   obstacles.filter (fun o => !(result.2.any (fun rid => decide (rid = o.id)))))

/-- Player-list component of `update_collisions`, as a plain fold (used to
reason about the pair-valued fold). -/
def collide_all (current_time : ℚ) (players : List Player)
    (obstacles : List Obstacle) : List Player :=
  obstacles.foldl (fun acc obs => (collide_obstacle current_time obs acc).1) players

/-- Per-player body of `GameServer.update_scores`. -/
def update_score_player (game_progress now : ℚ) (player : Player) : Player :=
  if decide (player.score < MAX_SCORE) && !player.finished then
    let base_points := POINTS_PER_TICK
    let collision_modifier :=
      max ((1:ℚ)/2) (1 - (player.consecutive_collisions : ℚ) * (1/10))
    let difficulty_bonus := 1 + game_progress * (3/10)
    let total_points := base_points * collision_modifier * difficulty_bonus
    let new_score := min (player.score + total_points) MAX_SCORE
    if decide (MAX_SCORE ≤ new_score) then
      { player with score := new_score, finished := true, blink := now }
    else
      { player with score := new_score }
  else player

/-- `GameServer.update_scores` over the whole player list. -/
def update_scores (game_progress now : ℚ) (players : List Player) : List Player :=
  players.map (update_score_player game_progress now)

/-! ## Movement (`update_player_movements`, `ease_out_back`) -/

/-- `GameServer.ease_out_back` with `c1 = 1.70158`, `c2 = c1 * 1.525`. -/
def ease_out_back (x : ℚ) : ℚ :=
  let c1 : ℚ := 170158/100000
  let c2 : ℚ := c1 * (1525/1000)
  1 + c2 * (x - 1) ^ 3 + c1 * (x - 1) ^ 2

/-- Per-player body of `GameServer.update_player_movements`: lane transition
(when `move_progress < 1.0`) followed by the vertical update. -/
def update_player_movement (game_progress dt : ℚ) (player : Player) : Player :=
  let player1 :=
    if decide (player.move_progress < 1) then
      let transition_speed :=
        if decide ((7:ℚ)/10 < game_progress) then LANE_CHANGE_DURATION * (8/10)
        else LANE_CHANGE_DURATION
      let mp := min 1 (player.move_progress + dt / transition_speed)
      let start_x := LANE_X player.lane
      let target_x := LANE_X player.target_lane
      let progress := ease_out_back mp
      let player2 := { player with
                       move_progress := mp,
                       x := start_x + (target_x - start_x) * progress }
      if decide ((1:ℚ) ≤ mp) then
        { player2 with lane := player.target_lane, x := LANE_X player.target_lane }
      else player2
    else player
  if player1.vertical_speed ≠ 0 then
    { player1 with
        y := max MIN_PLAYER_Y (min MAX_PLAYER_Y (player1.y + player1.vertical_speed * dt)) }
  else player1

/-- `GameServer.update_player_movements` over the whole player list. -/
def update_player_movements (game_progress dt : ℚ) (players : List Player) : List Player :=
  players.map (update_player_movement game_progress dt)

/-! ## Input handling (`handle_input`) -/

/-- An `input` message: the four boolean flags. -/
structure InputMsg where
  left : Bool
  right : Bool
  up : Bool
  down : Bool
deriving DecidableEq, Repr

/-- Per-player body of `GameServer.handle_input` (executed once the address
is known and the game is running; the inner `and self.game_running` of the
source is kept). -/
def handle_input_player (now : ℚ) (msg : InputMsg) (game_running : Bool)
    (player : Player) : Player :=
  let player1 :=
    if msg.up && !msg.down then { player with vertical_speed := -VERTICAL_SPEED }
    else if msg.down && !msg.up then { player with vertical_speed := VERTICAL_SPEED }
    else { player with vertical_speed := 0 }
  let player2 :=
    if decide ((1:ℚ) ≤ player1.move_progress) && game_running then
      let can_change_lane := decide ((1:ℚ)/2 < now - player1.last_collision_time)
      let target_lane :=
        if can_change_lane && (msg.left && !msg.right) && decide ((0:ℤ) < player1.lane) then
          player1.lane - 1
        else if can_change_lane && (msg.right && !msg.left) && decide (player1.lane < 2) then
          player1.lane + 1
        else player1.lane
      if target_lane ≠ player1.lane then
        { player1 with target_lane := target_lane, move_progress := 0 }
      else player1
    else player1
  { player2 with last_heartbeat := now }

/-- The lane the lane-change logic of `handle_input` ends up intending
(`target_lane` right before the `if target_lane != player.lane` check),
assuming the game is running. -/
def intended_lane (now : ℚ) (msg : InputMsg) (player : Player) : ℤ :=
  if (1:ℚ) ≤ player.move_progress then
    if (1:ℚ)/2 < now - player.last_collision_time then
      if msg.left && !msg.right && decide ((0:ℤ) < player.lane) then player.lane - 1
      else if msg.right && !msg.left && decide (player.lane < 2) then player.lane + 1
      else player.lane
    else player.lane
  else player.lane

/-! ## Server session state (`handle_join`, `handle_heartbeat`, `handle_input`
at message level, `check_game_end`, `reset_game`) -/

/-- Fields of `GameServer` that the verified handlers touch.  `players` is the
address-keyed dict (insertion-ordered, unique keys), addresses modelled as ℕ. -/
structure ServerState where
  players : List (ℕ × Player)
  next_player_id : ℕ
  game_running : Bool
  start_time : Option ℚ
  GAME_DURATION : ℚ
  game_progress : ℚ
  state_sequence : ℕ
  obstacles : List Obstacle
deriving DecidableEq, Repr

/-- `addr in self.players` / `self.players[addr]` on the association list. -/
def lookup_addr (players : List (ℕ × Player)) (addr : ℕ) : Option Player :=
  (players.find? (fun e => e.1 == addr)).map (fun e => e.2)

/-- The fresh `Player(...)` built by `handle_join` for a new address. -/
def new_player (name : String) (pid : ℕ) (now : ℚ) : Player :=
  { name := name, lane := 1, target_lane := 1, score := 0, blink := 0,
    last_heartbeat := now, x := LANE_X 1, y := PLAYER_Y, id := pid,
    finished := false, move_progress := 1, consecutive_collisions := 0,
    last_collision_time := 0, vertical_speed := 0, target_y := PLAYER_Y }

/-- Messages the verified handlers send back (`join_ack` carries the id the
client records; the obstacle table and settings are constants). -/
inductive OutMsg where
  | join_ack (id : ℕ)
  | heartbeat_ack
deriving DecidableEq, Repr

/-- `GameServer.handle_join`: name truncated to 20 chars; tracked address →
update name and heartbeat, answer with the existing id; new address → allocate
`next_player_id`, create the default player, answer with the new id. -/
def handle_join (st : ServerState) (addr : ℕ) (raw_name : String) (now : ℚ) :
    ServerState × ℕ :=
  let name := raw_name.take 20
  match st.players.find? (fun e => e.1 == addr) with
  | some e =>
    ({ st with players := st.players.map (fun e2 =>
        if e2.1 == addr then (e2.1, { e2.2 with name := name, last_heartbeat := now })
        else e2) },
     e.2.id)
  | none =>
    let pid := st.next_player_id
    ({ st with
        players := st.players ++ [(addr, new_player name pid now)],
        next_player_id := pid + 1 },
     pid)

/-- `GameServer.handle_input` at message level: unknown address or game not
running → return with no change; otherwise the per-player body runs.  It sends
nothing back. -/
def handle_input (st : ServerState) (addr : ℕ) (msg : InputMsg) (now : ℚ) :
    ServerState × List (ℕ × OutMsg) :=
  if (st.players.find? (fun e => e.1 == addr)).isNone || !st.game_running then
    (st, [])
  else
    ({ st with players := st.players.map (fun e =>
        if e.1 == addr then (e.1, handle_input_player now msg st.game_running e.2)
        else e) },
     [])

/-- `GameServer.handle_heartbeat`: refresh the heartbeat when the address is
tracked, and (unconditionally, outside the lock) send a `heartbeat_ack` back
to the sender. -/
def handle_heartbeat (st : ServerState) (addr : ℕ) (now : ℚ) :
    ServerState × List (ℕ × OutMsg) :=
  ({ st with players := st.players.map (fun e =>
      if e.1 == addr then (e.1, { e.2 with last_heartbeat := now }) else e) },
   [(addr, OutMsg.heartbeat_ack)])

/-- `GameServer.check_game_end`: no start time → False; elapsed ≥ duration →
True; otherwise True iff there are players and none of them is unfinished. -/
def check_game_end (st : ServerState) (current_time : ℚ) : Bool :=
  match st.start_time with
  | none => false
  | some s =>
    if decide (st.GAME_DURATION ≤ current_time - s) then true
    else
      if (st.players.filter (fun e => !e.2.finished)).isEmpty &&
          !st.players.isEmpty then true
      else false

/-- Per-player body of `GameServer.reset_game` (between-round reset). -/
def reset_player (now : ℚ) (player : Player) : Player :=
  { player with
      score := 0, lane := 1, target_lane := 1, x := LANE_X 1, y := PLAYER_Y,
      blink := 0, finished := false, move_progress := 1,
      consecutive_collisions := 0, last_collision_time := 0,
      last_heartbeat := now, vertical_speed := 0, target_y := PLAYER_Y }

/-- `GameServer.reset_game`. -/
def reset_game (st : ServerState) (now : ℚ) : ServerState :=
  { st with
      players := st.players.map (fun e => (e.1, reset_player now e.2)),
      obstacles := [],
      start_time := some now,
      game_progress := 0,
      state_sequence := 0 }

/-! ## Client (`client_test_9.py`): state-message reconciliation -/

/-- One entry of the `players` array in a `state` message. -/
structure PlayerInfo where
  id : ℕ
  x : ℚ
  y : ℚ
  name : String
  score : ℚ
  finished : Bool
deriving DecidableEq, Repr

/-- One entry of the `obstacles` array as the client stores it. -/
structure ObstacleInfo where
  x : ℚ
  y : ℚ
  type : String
  lane : ℤ
  id : ℚ
  color : String
deriving DecidableEq, Repr

/-- A decoded `state` message (the server always includes `seq`). -/
structure StateMsg where
  seq : ℤ
  players : List PlayerInfo
  obstacles : List ObstacleInfo
  game_running : Bool
  time_left : ℚ
deriving DecidableEq, Repr

/-- The client-side variables the `state` branch of the receive loop writes. -/
structure ClientState where
  last_seq : ℤ
  game_running : Bool
  game_time_left : ℚ
  targets : List (ℕ × (ℚ × ℚ × String))
  interp : List (ℕ × (ℚ × ℚ))
  player_scores : List (ℕ × (String × ℚ × Bool))
  current_obstacles : List ObstacleInfo
deriving DecidableEq, Repr

/-- Python dict assignment `d[k] = v` on an insertion-ordered assoc list. -/
def dict_set {α : Type} (l : List (ℕ × α)) (k : ℕ) (v : α) : List (ℕ × α) :=
  if l.any (fun e => e.1 == k) then
    l.map (fun e => if e.1 == k then (k, v) else e)
  else l ++ [(k, v)]

/-- The per-player-info updates of the client's `state` branch:
`targets[pid] = ...`, `if pid not in interp: interp[pid] = ...`,
`player_scores[pid] = ...`. -/
def apply_player_info (cs : ClientState) (info : PlayerInfo) : ClientState :=
  { cs with
      targets := dict_set cs.targets info.id (info.x, info.y, info.name),
      interp := if cs.interp.any (fun e => e.1 == info.id) then cs.interp
                else cs.interp ++ [(info.id, (info.x, info.y))],
      player_scores := dict_set cs.player_scores info.id
        (info.name, info.score, info.finished) }

/-- The `state` branch of the client receive loop: stale sequence numbers
(`seq <= last_seq`) are dropped with no change at all; fresh ones update
`last_seq`, the game flags, every player entry and the obstacle list. -/
def process_state (cs : ClientState) (msg : StateMsg) : ClientState :=
  if decide (msg.seq ≤ cs.last_seq) then cs
  else
    let cs1 := { cs with
                 last_seq := msg.seq,
                 game_running := msg.game_running,
                 game_time_left := msg.time_left }
    let cs2 := msg.players.foldl apply_player_info cs1
    { cs2 with current_obstacles := msg.obstacles }

/-! ## Bounds predicate and spec-side definitions -/

/-- The C8 invariant: lane and target lane in `{0,1,2}`, transition progress
in `[0,1]`. -/
def player_bounds (p : Player) : Prop :=
  0 ≤ p.lane ∧ p.lane ≤ 2 ∧ 0 ≤ p.target_lane ∧ p.target_lane ≤ 2 ∧
  0 ≤ p.move_progress ∧ p.move_progress ≤ 1

/-- Linear interpolation, as the spec words it:
`lerp(current lane center, target lane center, e)`. -/
def lerp (a b t : ℚ) : ℚ := a + (b - a) * t

/-- The easing curve exactly as the spec spells it:
`ease(x) = 1 + c2*(x-1)^3 + c1*(x-1)^2`, `c1 = 1.70158`, `c2 = c1*1.525`. -/
def ease_spec_curve (x : ℚ) : ℚ :=
  1 + ((170158/100000) * (1525/1000)) * (x - 1) ^ 3 + (170158/100000) * (x - 1) ^ 2

/-! ## Concrete fixtures used by witnesses and counterexamples -/

/-- A player in lane 1 at the lane center, in a collision streak
(`consecutive_collisions = 1`, last collision at time 9), not invulnerable at
time 10 (blink at 8, `10 - 8 ≥ 1.5`). -/
def pCX1 : Player :=
  { name := "P1", lane := 1, target_lane := 1, score := 100, blink := 8,
    last_heartbeat := 0, x := 500, y := 300, id := 1, finished := false,
    move_progress := 1, consecutive_collisions := 1, last_collision_time := 9,
    vertical_speed := 0, target_y := 300 }

/-- A bus obstacle (base penalty 25) overlapping `pCX1` in lane 1. -/
def oCX1 : Obstacle :=
  { lane := 1, y := 300, x := 500, id := 1, type := "bus", width := 90,
    height := 180, speed := 100, penalty := 25, color := "#45B7D1" }

/-- An unfinished player with score 10, used to instantiate C2. -/
def pW2 : Player :=
  { name := "P2", lane := 1, target_lane := 1, score := 10, blink := 0,
    last_heartbeat := 0, x := 500, y := 300, id := 2, finished := false,
    move_progress := 1, consecutive_collisions := 0, last_collision_time := 0,
    vertical_speed := 0, target_y := 300 }

/-- A player hit at time 5 (blink = 5), hence invulnerable at time 6. -/
def pW3 : Player :=
  { name := "P3", lane := 1, target_lane := 1, score := 77, blink := 5,
    last_heartbeat := 0, x := 500, y := 300, id := 3, finished := false,
    move_progress := 1, consecutive_collisions := 1, last_collision_time := 5,
    vertical_speed := 0, target_y := 300 }

/-- A car obstacle overlapping `pW3` in lane 1. -/
def oW3 : Obstacle :=
  { lane := 1, y := 300, x := 500, id := 2, type := "car", width := 80,
    height := 120, speed := 140, penalty := 10, color := "#FF6B6B" }

/-- A player mid lane change (progress 0, lane 1 → 0), used to instantiate C4. -/
def pW4 : Player :=
  { name := "P4", lane := 1, target_lane := 0, score := 0, blink := 0,
    last_heartbeat := 0, x := 500, y := 300, id := 4, finished := false,
    move_progress := 0, consecutive_collisions := 0, last_collision_time := 0,
    vertical_speed := 0, target_y := 300 }

/-- A settled player (progress 1) with a nonzero vertical speed, tracked at
address 3 of `stCX5` while the game is not running. -/
def pCX5 : Player :=
  { name := "P5", lane := 1, target_lane := 1, score := 0, blink := 0,
    last_heartbeat := 0, x := 500, y := 300, id := 5, finished := false,
    move_progress := 1, consecutive_collisions := 0, last_collision_time := 0,
    vertical_speed := 55, target_y := 300 }

/-- A server whose game is not running but which still tracks `pCX5`. -/
def stCX5 : ServerState :=
  { players := [(3, pCX5)], next_player_id := 6, game_running := false,
    start_time := none, GAME_DURATION := 40, game_progress := 0,
    state_sequence := 0, obstacles := [] }

/-- A settled player eligible for a lane change at time 1, used to
instantiate the amended C5. -/
def pW5 : Player :=
  { name := "P5w", lane := 1, target_lane := 1, score := 0, blink := -10,
    last_heartbeat := 0, x := 500, y := 300, id := 5, finished := false,
    move_progress := 1, consecutive_collisions := 0, last_collision_time := 0,
    vertical_speed := 0, target_y := 300 }

/-- A client that already applied sequence number 5. -/
def csW6 : ClientState :=
  { last_seq := 5, game_running := true, game_time_left := 10, targets := [],
    interp := [], player_scores := [], current_obstacles := [] }

/-- A stale state message (sequence 3 ≤ 5). -/
def msgW6 : StateMsg :=
  { seq := 3, players := [], obstacles := [], game_running := false,
    time_left := 0 }

/-- A server tracking one player at address 2, used to instantiate C7. -/
def stW7 : ServerState :=
  { players := [(2, pW2)], next_player_id := 9, game_running := true,
    start_time := some 0, GAME_DURATION := 40, game_progress := 0,
    state_sequence := 0, obstacles := [] }

/-- A running round, started at time 0, with no joined players (everyone
left or timed out mid-round). -/
def stCX9 : ServerState :=
  { players := [], next_player_id := 1, game_running := true,
    start_time := some 0, GAME_DURATION := 40, game_progress := 0,
    state_sequence := 0, obstacles := [] }

/-- A server tracking nobody, receiving traffic from address 7. -/
def stCX10 : ServerState :=
  { players := [], next_player_id := 1, game_running := true,
    start_time := some 0, GAME_DURATION := 40, game_progress := 0,
    state_sequence := 0, obstacles := [] }

/-! ## Helper lemmas about the collision pass -/

theorem reset_consecutive_score (t : ℚ) (p : Player) :
    (reset_consecutive t p).score = p.score := by
  unfold reset_consecutive; split <;> rfl

theorem reset_consecutive_blink (t : ℚ) (p : Player) :
    (reset_consecutive t p).blink = p.blink := by
  unfold reset_consecutive; split <;> rfl

theorem reset_consecutive_finished (t : ℚ) (p : Player) :
    (reset_consecutive t p).finished = p.finished := by
  unfold reset_consecutive; split <;> rfl

theorem reset_consecutive_lane (t : ℚ) (p : Player) :
    (reset_consecutive t p).lane = p.lane := by
  unfold reset_consecutive; split <;> rfl

theorem check_collision_reset (t : ℚ) (p : Player) (obs : Obstacle) :
    check_collision (reset_consecutive t p) obs = check_collision p obs := by
  unfold reset_consecutive; split <;> rfl

theorem py_int_eq_floor {q : ℚ} (h : 0 ≤ q) : py_int q = ⌊q⌋ := by
  unfold py_int; rw [if_neg (not_lt.mpr h)]

theorem py_int_nonneg {q : ℚ} (h : 0 ≤ q) : 0 ≤ py_int q := by
  rw [py_int_eq_floor h]; exact Int.floor_nonneg.mpr h

theorem apply_penalty_finished (t : ℚ) (obs : Obstacle) (p : Player) :
    (apply_penalty t obs p).finished = p.finished := rfl

/-- The penalty subtracted by `apply_penalty` is nonnegative whenever the
obstacle's base penalty is. -/
theorem apply_penalty_score_bounds (t : ℚ) (obs : Obstacle) (p : Player)
    (hpen : (0:ℤ) ≤ obs.penalty) :
    0 ≤ (apply_penalty t obs p).score ∧
    (apply_penalty t obs p).score ≤ max 0 p.score := by
  unfold apply_penalty
  have hbase : (0:ℤ) ≤ (if 0 < p.consecutive_collisions then
      py_int ((obs.penalty : ℚ) * (1 + (p.consecutive_collisions : ℚ) * (3/10)))
    else obs.penalty) := by
    split
    · apply py_int_nonneg
      have h1 : (0:ℚ) ≤ (obs.penalty : ℚ) := by exact_mod_cast hpen
      have h2 : (0:ℚ) ≤ 1 + (p.consecutive_collisions : ℚ) * (3/10) := by positivity
      exact mul_nonneg h1 h2
    · exact hpen
  constructor
  · exact le_max_left _ _
  · apply max_le
    · exact le_max_left _ _
    · refine le_trans ?_ (le_max_right 0 p.score)
      have : (0:ℚ) ≤ ((if 0 < p.consecutive_collisions then
          py_int ((obs.penalty : ℚ) * (1 + (p.consecutive_collisions : ℚ) * (3/10)))
        else obs.penalty : ℤ) : ℚ) := by exact_mod_cast hbase
      linarith

/-- Forall₂ from a related list, strengthening the relation using membership
of the left element. -/
theorem forall₂_imp_mem {α β : Type} {R S : α → β → Prop} :
    ∀ {l1 : List α} {l2 : List β}, List.Forall₂ R l1 l2 →
      (∀ a ∈ l1, ∀ b, R a b → S a b) → List.Forall₂ S l1 l2 := by
  intro l1 l2 h
  induction h with
  | nil => intro _; exact List.Forall₂.nil
  | cons hab htl ih =>
    intro himp
    exact List.Forall₂.cons (himp _ (List.mem_cons_self _ _) _ hab)
      (ih (fun a ha b hr => himp a (List.mem_cons_of_mem _ ha) b hr))

/-- Right-to-left membership transfer along a Forall₂. -/
theorem forall₂_mem_right {α β : Type} {R : α → β → Prop} :
    ∀ {l1 : List α} {l2 : List β}, List.Forall₂ R l1 l2 →
      ∀ b ∈ l2, ∃ a ∈ l1, R a b := by
  intro l1 l2 h
  induction h with
  | nil => simp
  | cons hab htl ih =>
    intro b hb
    rcases List.mem_cons.mp hb with rfl | hb
    · exact ⟨_, List.mem_cons_self _ _, hab⟩
    · obtain ⟨a, ha, hr⟩ := ih b hb
      exact ⟨a, List.mem_cons_of_mem _ ha, hr⟩

/-- Forall₂ chains along a transitive relation. -/
theorem forall₂_trans_of {α : Type} {R : α → α → Prop}
    (hR : ∀ a b c, R a b → R b c → R a c) :
    ∀ {l1 l2 l3 : List α}, List.Forall₂ R l1 l2 → List.Forall₂ R l2 l3 →
      List.Forall₂ R l1 l3 := by
  intro l1 l2 l3 h12
  induction h12 generalizing l3 with
  | nil => intro h23; cases h23; exact List.Forall₂.nil
  | cons hab htl ih =>
    intro h23
    cases h23 with
    | cons hbc htl2 => exact List.Forall₂.cons (hR _ _ _ hab hbc) (ih htl2)

/-- One pass of the inner collision loop turns each player into: itself
(players after the `break`), its lazily-reset version (skipped players), or
the penalised reset version (the hit player, necessarily vulnerable and
unfinished). -/
theorem collide_obstacle_rel (t : ℚ) (obs : Obstacle) (ps : List Player) :
    List.Forall₂ (fun p q =>
        q = p ∨ q = reset_consecutive t p ∨
        (¬(t - p.blink < BLINK_DURATION) ∧ p.finished = false ∧
         q = apply_penalty t obs (reset_consecutive t p)))
      ps (collide_obstacle t obs ps).1 := by
  induction ps with
  | nil => exact List.Forall₂.nil
  | cons p rest ih =>
    simp only [collide_obstacle]
    by_cases h1 : (is_invulnerable t p || (reset_consecutive t p).finished) = true
    · rw [if_pos h1]
      exact List.Forall₂.cons (Or.inr (Or.inl rfl)) ih
    · rw [if_neg h1]
      by_cases h2 : (check_collision (reset_consecutive t p) obs &&
          decide (obs.lane = (reset_consecutive t p).lane)) = true
      · rw [if_pos h2]
        have h1a : is_invulnerable t p = false := by
          rcases Bool.or_eq_false_iff.mp (Bool.eq_false_iff.mpr h1) with ⟨ha, _⟩
          exact ha
        have h1b : p.finished = false := by
          rcases Bool.or_eq_false_iff.mp (Bool.eq_false_iff.mpr h1) with ⟨_, hb⟩
          rw [reset_consecutive_finished] at hb
          exact hb
        refine List.Forall₂.cons (Or.inr (Or.inr ⟨?_, h1b, rfl⟩)) ?_
        · intro hcon
          have : is_invulnerable t p = true := by
            unfold is_invulnerable; exact decide_eq_true hcon
          rw [h1a] at this; exact Bool.false_ne_true this
        · exact List.forall₂_same.mpr (fun x _ => Or.inl rfl)
      · rw [if_neg h2]
        exact List.Forall₂.cons (Or.inr (Or.inl rfl)) ih

/-- A skipped or non-matching head commutes with the loop. -/
theorem collide_obstacle_skip (t : ℚ) (obs : Obstacle) (q : Player) (l : List Player)
    (h : (t - q.blink < BLINK_DURATION) ∨ q.finished = true ∨
         check_collision q obs = false ∨ obs.lane ≠ q.lane) :
    collide_obstacle t obs (q :: l) =
      (reset_consecutive t q :: (collide_obstacle t obs l).1,
       (collide_obstacle t obs l).2) := by
  simp only [collide_obstacle]
  by_cases h1 : (is_invulnerable t q || (reset_consecutive t q).finished) = true
  · rw [if_pos h1]
  · rw [if_neg h1]
    have h1a : is_invulnerable t q = false := by
      rcases Bool.or_eq_false_iff.mp (Bool.eq_false_iff.mpr h1) with ⟨ha, _⟩
      exact ha
    have h1b : q.finished = false := by
      rcases Bool.or_eq_false_iff.mp (Bool.eq_false_iff.mpr h1) with ⟨_, hb⟩
      rw [reset_consecutive_finished] at hb
      exact hb
    have h2 : (check_collision (reset_consecutive t q) obs &&
        decide (obs.lane = (reset_consecutive t q).lane)) = false := by
      rcases h with h | h | h | h
      · exfalso
        have hcon : is_invulnerable t q = true := decide_eq_true h
        rw [h1a] at hcon
        exact Bool.false_ne_true hcon
      · exfalso
        rw [h] at h1b
        exact Bool.false_ne_true h1b.symm
      · rw [check_collision_reset, h]; rfl
      · rw [reset_consecutive_lane]
        simp [h]
    rw [if_neg (by simp [h2])]

/-- The vulnerable, unfinished, overlapping same-lane head takes the penalty
and the loop breaks. -/
theorem collide_obstacle_hit (t : ℚ) (obs : Obstacle) (p : Player) (rest : List Player)
    (hinv : ¬(t - p.blink < BLINK_DURATION)) (hfin : p.finished = false)
    (hcol : check_collision p obs = true) (hlane : obs.lane = p.lane) :
    collide_obstacle t obs (p :: rest) =
      (apply_penalty t obs (reset_consecutive t p) :: rest, true) := by
  simp only [collide_obstacle]
  have h1 : (is_invulnerable t p || (reset_consecutive t p).finished) = false := by
    rw [Bool.or_eq_false_iff]
    constructor
    · unfold is_invulnerable; exact decide_eq_false hinv
    · rw [reset_consecutive_finished]; exact hfin
  rw [if_neg (by simp [h1])]
  have h2 : (check_collision (reset_consecutive t p) obs &&
      decide (obs.lane = (reset_consecutive t p).lane)) = true := by
    rw [Bool.and_eq_true]
    constructor
    · rw [check_collision_reset]; exact hcol
    · rw [reset_consecutive_lane]; exact decide_eq_true hlane
  rw [if_pos h2]

/-- All-lanes-differ: the pass only performs lazy resets and reports no hit. -/
theorem collide_obstacle_other_lane (t : ℚ) (obs : Obstacle) :
    ∀ ps : List Player, (∀ q ∈ ps, obs.lane ≠ q.lane) →
      collide_obstacle t obs ps = (ps.map (reset_consecutive t), false) := by
  intro ps
  induction ps with
  | nil => intro _; rfl
  | cons q l ih =>
    intro h
    rw [collide_obstacle_skip t obs q l (Or.inr (Or.inr (Or.inr
      (h q (List.mem_cons_self _ _))))),
      ih (fun r hr => h r (List.mem_cons_of_mem _ hr))]
    rfl

/-- The player component of `update_collisions` is the plain obstacle fold. -/
theorem update_collisions_fst (t : ℚ) (ps : List Player) (obstacles : List Obstacle) :
    (update_collisions t ps obstacles).1 = collide_all t ps obstacles := by
  unfold update_collisions collide_all
  suffices h : ∀ (l : List Obstacle) (ps : List Player) (ids : List ℚ),
      (l.foldl (fun acc obs =>
        ((collide_obstacle t obs acc.1).1,
         if (collide_obstacle t obs acc.1).2 then obs.id :: acc.2 else acc.2))
        (ps, ids)).1
      = l.foldl (fun acc obs => (collide_obstacle t obs acc).1) ps by
    exact h obstacles ps []
  intro l
  induction l with
  | nil => intro ps ids; rfl
  | cons o rest ih =>
    intro ps ids
    rw [List.foldl_cons, List.foldl_cons]
    exact ih _ _

/-- One collision pass preserves the score bounds and the finished flag. -/
theorem collide_obstacle_inv (t : ℚ) (obs : Obstacle) (hpen : (0:ℤ) ≤ obs.penalty)
    (ps : List Player) (hps : ∀ p ∈ ps, 0 ≤ p.score ∧ p.score ≤ MAX_SCORE) :
    List.Forall₂ (fun p q => q.finished = p.finished ∧ 0 ≤ q.score ∧ q.score ≤ MAX_SCORE)
      ps (collide_obstacle t obs ps).1 := by
  refine forall₂_imp_mem (collide_obstacle_rel t obs ps) ?_
  intro p hp q hr
  obtain ⟨hp0, hp1⟩ := hps p hp
  rcases hr with rfl | rfl | ⟨_, _, rfl⟩
  · exact ⟨rfl, hp0, hp1⟩
  · rw [reset_consecutive_finished, reset_consecutive_score]
    exact ⟨rfl, hp0, hp1⟩
  · obtain ⟨hq0, hq1⟩ := apply_penalty_score_bounds t obs (reset_consecutive t p) hpen
    rw [reset_consecutive_score] at hq1
    rw [apply_penalty_finished, reset_consecutive_finished]
    refine ⟨rfl, hq0, le_trans hq1 ?_⟩
    rw [max_eq_right hp0]
    exact hp1

/-- The whole obstacle fold preserves the score bounds and the finished flag. -/
theorem collide_all_inv (t : ℚ) :
    ∀ (obstacles : List Obstacle) (ps : List Player),
      (∀ o ∈ obstacles, (0:ℤ) ≤ o.penalty) →
      (∀ p ∈ ps, 0 ≤ p.score ∧ p.score ≤ MAX_SCORE) →
      List.Forall₂ (fun p q => q.finished = p.finished ∧ 0 ≤ q.score ∧ q.score ≤ MAX_SCORE)
        ps (collide_all t ps obstacles) := by
  intro obstacles
  induction obstacles with
  | nil =>
    intro ps _ hps
    exact List.forall₂_same.mpr (fun p hp => ⟨rfl, hps p hp⟩)
  | cons o rest ih =>
    intro ps hpen hps
    have hstep := collide_obstacle_inv t o (hpen o (List.mem_cons_self _ _)) ps hps
    have hps2 : ∀ q ∈ (collide_obstacle t o ps).1, 0 ≤ q.score ∧ q.score ≤ MAX_SCORE := by
      intro q hq
      obtain ⟨p, _, hr⟩ := forall₂_mem_right hstep q hq
      exact hr.2
    have hrest := ih ((collide_obstacle t o ps).1)
      (fun o2 ho2 => hpen o2 (List.mem_cons_of_mem _ ho2)) hps2
    have htrans : ∀ a b c : Player,
        (b.finished = a.finished ∧ 0 ≤ b.score ∧ b.score ≤ MAX_SCORE) →
        (c.finished = b.finished ∧ 0 ≤ c.score ∧ c.score ≤ MAX_SCORE) →
        (c.finished = a.finished ∧ 0 ≤ c.score ∧ c.score ≤ MAX_SCORE) :=
      fun a b c hab hbc => ⟨hbc.1.trans hab.1, hbc.2⟩
    show List.Forall₂ _ ps (collide_all t ps (o :: rest))
    have : collide_all t ps (o :: rest) = collide_all t ((collide_obstacle t o ps).1) rest := by
      unfold collide_all
      rw [List.foldl_cons]
    rw [this]
    exact forall₂_trans_of htrans hstep hrest

/-- One collision pass leaves an invulnerable player's score and blink
timestamp untouched. -/
theorem collide_obstacle_invuln (t : ℚ) (obs : Obstacle) (ps : List Player) :
    List.Forall₂ (fun p q => (t - p.blink < BLINK_DURATION) →
        q.score = p.score ∧ q.blink = p.blink)
      ps (collide_obstacle t obs ps).1 := by
  refine forall₂_imp_mem (collide_obstacle_rel t obs ps) ?_
  intro p _ q hr hinv
  rcases hr with rfl | rfl | ⟨hni, _, rfl⟩
  · exact ⟨rfl, rfl⟩
  · exact ⟨reset_consecutive_score t p, reset_consecutive_blink t p⟩
  · exact absurd hinv hni

/-- The whole obstacle fold leaves an invulnerable player's score and blink
timestamp untouched. -/
theorem collide_all_invuln (t : ℚ) :
    ∀ (obstacles : List Obstacle) (ps : List Player),
      List.Forall₂ (fun p q => (t - p.blink < BLINK_DURATION) →
          q.score = p.score ∧ q.blink = p.blink)
        ps (collide_all t ps obstacles) := by
  intro obstacles
  induction obstacles with
  | nil =>
    intro ps
    exact List.forall₂_same.mpr (fun p _ _ => ⟨rfl, rfl⟩)
  | cons o rest ih =>
    intro ps
    have hstep := collide_obstacle_invuln t o ps
    have hrest := ih ((collide_obstacle t o ps).1)
    have htrans : ∀ a b c : Player,
        ((t - a.blink < BLINK_DURATION) → b.score = a.score ∧ b.blink = a.blink) →
        ((t - b.blink < BLINK_DURATION) → c.score = b.score ∧ c.blink = b.blink) →
        ((t - a.blink < BLINK_DURATION) → c.score = a.score ∧ c.blink = a.blink) := by
      intro a b c hab hbc ha
      obtain ⟨hs, hb⟩ := hab ha
      obtain ⟨hs2, hb2⟩ := hbc (by rw [hb]; exact ha)
      exact ⟨hs2.trans hs, hb2.trans hb⟩
    have : collide_all t ps (o :: rest) = collide_all t ((collide_obstacle t o ps).1) rest := by
      unfold collide_all
      rw [List.foldl_cons]
    rw [this]
    exact forall₂_trans_of htrans hstep hrest

/-- First-match characterization of one collision pass: all earlier players
fail to match, the first matching player takes the penalty, everyone after it
is untouched, and the pass reports a hit. -/
theorem collide_obstacle_first_match (t : ℚ) (obs : Obstacle) :
    ∀ (pre : List Player) (p : Player) (rest : List Player),
      (∀ q ∈ pre, (t - q.blink < BLINK_DURATION) ∨ q.finished = true ∨
          check_collision q obs = false ∨ obs.lane ≠ q.lane) →
      ¬(t - p.blink < BLINK_DURATION) → p.finished = false →
      check_collision p obs = true → obs.lane = p.lane →
      collide_obstacle t obs (pre ++ p :: rest) =
        (pre.map (reset_consecutive t) ++
          apply_penalty t obs (reset_consecutive t p) :: rest, true) := by
  intro pre
  induction pre with
  | nil =>
    intro p rest _ hinv hfin hcol hlane
    simpa using collide_obstacle_hit t obs p rest hinv hfin hcol hlane
  | cons q pre ih =>
    intro p rest hpre hinv hfin hcol hlane
    rw [List.cons_append,
      collide_obstacle_skip t obs q (pre ++ p :: rest) (hpre q (List.mem_cons_self _ _)),
      ih p rest (fun r hr => hpre r (List.mem_cons_of_mem _ hr)) hinv hfin hcol hlane]
    rfl

/-! ## Claim theorems -/

/-- C1 (amended): during a tick at time `t`, an obstacle whose hitbox overlaps
the first vulnerable, unfinished, same-lane player applies exactly one
penalty — equal to the *integer truncation* of the base penalty scaled by
`1 + 0.3 × consecutive_collisions` when the counter is positive, and to the
plain base penalty otherwise — clamps the score at 0, stamps blink and
last-collision times with `t`, increments the counter, leaves every other
player untouched (first match wins) and removes the obstacle exactly once;
a player in a different lane is never penalised (its score is unchanged)
regardless of hitbox overlap. -/
theorem C1_collision (t : ℚ) (obs : Obstacle) (pre : List Player) (p : Player)
    (rest : List Player)
    (hpre : ∀ q ∈ pre, (t - q.blink < BLINK_DURATION) ∨ q.finished = true ∨
        check_collision q obs = false ∨ obs.lane ≠ q.lane)
    (hinv : ¬(t - p.blink < BLINK_DURATION)) (hfin : p.finished = false)
    (hcol : check_collision p obs = true) (hlane : obs.lane = p.lane)
    (hpen : (0:ℤ) ≤ obs.penalty) :
    update_collisions t (pre ++ p :: rest) [obs] =
      (pre.map (reset_consecutive t) ++
        apply_penalty t obs (reset_consecutive t p) :: rest, [])
  ∧ ((0 < (reset_consecutive t p).consecutive_collisions →
        (apply_penalty t obs (reset_consecutive t p)).score =
          max 0 (p.score - (⌊(obs.penalty : ℚ) *
            (1 + ((reset_consecutive t p).consecutive_collisions : ℚ) * (3/10))⌋ : ℚ)))
      ∧ ((reset_consecutive t p).consecutive_collisions = 0 →
        (apply_penalty t obs (reset_consecutive t p)).score =
          max 0 (p.score - (obs.penalty : ℚ)))
      ∧ (apply_penalty t obs (reset_consecutive t p)).blink = t
      ∧ (apply_penalty t obs (reset_consecutive t p)).last_collision_time = t
      ∧ (apply_penalty t obs (reset_consecutive t p)).consecutive_collisions =
          (reset_consecutive t p).consecutive_collisions + 1
      ∧ (apply_penalty t obs (reset_consecutive t p)).finished = p.finished)
  ∧ (∀ (t2 : ℚ) (obs2 : Obstacle) (ps : List Player),
      (∀ q ∈ ps, obs2.lane ≠ q.lane) →
      collide_obstacle t2 obs2 ps = (ps.map (reset_consecutive t2), false))
  ∧ (∀ (t2 : ℚ) (q : Player), (reset_consecutive t2 q).score = q.score) := by
  refine ⟨?_, ⟨?_, ?_, rfl, rfl, rfl, ?_⟩, collide_obstacle_other_lane, ?_⟩
  · have hmain := collide_obstacle_first_match t obs pre p rest hpre hinv hfin hcol hlane
    unfold update_collisions
    simp only [List.foldl_cons, List.foldl_nil, hmain, if_pos]
    simp
  · intro hc
    simp only [apply_penalty]
    rw [if_pos hc, py_int_eq_floor, reset_consecutive_score]
    have h1 : (0:ℚ) ≤ (obs.penalty : ℚ) := by exact_mod_cast hpen
    have h2 : (0:ℚ) ≤ 1 + ((reset_consecutive t p).consecutive_collisions : ℚ) * (3/10) := by
      positivity
    exact mul_nonneg h1 h2
  · intro hc
    simp only [apply_penalty]
    rw [if_neg (by omega), reset_consecutive_score]
  · rw [apply_penalty_finished, reset_consecutive_finished]
  · intro t2 q
    exact reset_consecutive_score t2 q

/-- Witness for C1: the concrete streaking player `pCX1` hit by the bus
`oCX1` at time 10. -/
theorem C1_collision_witness :
    update_collisions 10 ([] ++ pCX1 :: []) [oCX1] =
      (List.map (reset_consecutive 10) [] ++
        apply_penalty 10 oCX1 (reset_consecutive 10 pCX1) :: [], []) :=
  (C1_collision 10 oCX1 [] pCX1 []
    (by intro q hq; cases hq)
    (by norm_num [pCX1, BLINK_DURATION])
    rfl
    (by norm_num [check_collision, pCX1, oCX1])
    rfl
    (by norm_num [oCX1])).1

/-- Counterexample to C1 as stated: the bus (base penalty 25) hitting `pCX1`
(streak counter 1) subtracts `int(25 * 1.3) = 32`, not the claimed
`25 * (1 + 0.3 * 1) = 32.5`. -/
theorem C1_collision_counterexample :
    (update_collisions 10 [pCX1] [oCX1]).1.map Player.score = [68] ∧
    (68 : ℚ) ≠ 100 - 25 * (1 + (3/10) * 1) := by
  constructor
  · norm_num [update_collisions, collide_obstacle, is_invulnerable, reset_consecutive,
      apply_penalty, check_collision, py_int, pCX1, oCX1, BLINK_DURATION,
      COLLISION_RESET_TIME]
  · norm_num

/-- C2: the per-tick scoring keeps the score inside `[0, MAX_SCORE]` and
can only switch `finished` from false to true; the collision pass keeps the
score inside `[0, MAX_SCORE]` and never changes `finished`; input handling
and movement never change `finished` either. -/
theorem C2_score_invariants :
    (∀ gp now p, 0 ≤ gp → 0 ≤ Player.score p → Player.score p ≤ MAX_SCORE →
        0 ≤ (update_score_player gp now p).score ∧
        (update_score_player gp now p).score ≤ MAX_SCORE ∧
        (p.finished = true → (update_score_player gp now p).finished = true))
  ∧ (∀ t ps obstacles, (∀ o ∈ obstacles, (0:ℤ) ≤ Obstacle.penalty o) →
        (∀ p ∈ ps, 0 ≤ Player.score p ∧ Player.score p ≤ MAX_SCORE) →
        List.Forall₂ (fun p q => q.finished = p.finished ∧
            0 ≤ q.score ∧ q.score ≤ MAX_SCORE)
          ps (update_collisions t ps obstacles).1)
  ∧ (∀ now msg gr p, (handle_input_player now msg gr p).finished = p.finished)
  ∧ (∀ gp dt p, (update_player_movement gp dt p).finished = p.finished) := by
  refine ⟨?_, ?_, ?_, ?_⟩
  · intro gp now p hgp h0 h1
    by_cases hb : (decide (p.score < MAX_SCORE) && !p.finished) = true
    · have hmod : (0:ℚ) ≤ max ((1:ℚ)/2) (1 - (p.consecutive_collisions : ℚ) * (1/10)) :=
        le_trans (by norm_num) (le_max_left _ _)
      have hbonus : (0:ℚ) ≤ 1 + gp * (3/10) := by linarith
      have hppt : (0:ℚ) ≤ POINTS_PER_TICK := by
        norm_num [POINTS_PER_TICK, MAX_SCORE, BASE_GAME_DURATION, TICK_RATE]
      have htot : (0:ℚ) ≤ POINTS_PER_TICK *
          max ((1:ℚ)/2) (1 - (p.consecutive_collisions : ℚ) * (1/10)) * (1 + gp * (3/10)) :=
        mul_nonneg (mul_nonneg hppt hmod) hbonus
      have hfin : p.finished = false := by
        by_contra hf
        rw [Bool.not_eq_false] at hf
        rw [hf] at hb
        simp at hb
      have hscore : (update_score_player gp now p).score =
          min (p.score + POINTS_PER_TICK *
            max ((1:ℚ)/2) (1 - (p.consecutive_collisions : ℚ) * (1/10)) *
            (1 + gp * (3/10))) MAX_SCORE := by
        simp only [update_score_player]
        rw [if_pos hb]
        split <;> rfl
      rw [hscore]
      refine ⟨le_min (by linarith) (by norm_num [MAX_SCORE]), min_le_right _ _, ?_⟩
      intro hcon
      rw [hfin] at hcon
      exact absurd hcon (by simp)
    · unfold update_score_player
      rw [if_neg hb]
      exact ⟨h0, h1, fun hf => hf⟩
  · intro t ps obstacles hpen hps
    rw [update_collisions_fst]
    exact collide_all_inv t obstacles ps hpen hps
  · intro now msg gr p
    simp only [handle_input_player]
    split_ifs <;> rfl
  · intro gp dt p
    simp only [update_player_movement]
    split_ifs <;> rfl

/-- Witness for C2: the concrete player `pW2` with score 10 at progress 0. -/
theorem C2_score_invariants_witness :
    0 ≤ (update_score_player 0 0 pW2).score ∧
    (update_score_player 0 0 pW2).score ≤ MAX_SCORE ∧
    (pW2.finished = true → (update_score_player 0 0 pW2).finished = true) :=
  C2_score_invariants.1 0 0 pW2 (by norm_num) (by norm_num [pW2])
    (by norm_num [pW2, MAX_SCORE])

/-- C3: a player whose last collision stamped `blink = t` loses neither score
nor its blink timestamp in any collision pass run at a time `tq` with
`tq - t < BLINK_DURATION`, whatever the obstacles are. -/
theorem C3_invulnerability (t tq : ℚ) (ps : List Player) (obstacles : List Obstacle)
    (h : tq - t < BLINK_DURATION) :
    List.Forall₂ (fun p q => p.blink = t → q.score = p.score ∧ q.blink = p.blink)
      ps (update_collisions tq ps obstacles).1 := by
  rw [update_collisions_fst]
  refine forall₂_imp_mem (collide_all_invuln tq obstacles ps) ?_
  intro p _ q hpq hblink
  exact hpq (by rw [hblink]; exact h)

/-- Witness for C3: `pW3` was hit at time 5 and meets the bus again at time 6,
inside the 1.5 s blink window. -/
theorem C3_invulnerability_witness :
    List.Forall₂ (fun p q => p.blink = 5 → q.score = p.score ∧ q.blink = p.blink)
      [pW3] (update_collisions 6 [pW3] [oW3]).1 :=
  C3_invulnerability 5 6 [pW3] [oW3] (by norm_num [BLINK_DURATION])

/-! ## Movement helper lemmas -/

theorem update_player_movement_y (gp dt : ℚ) (p : Player) :
    (update_player_movement gp dt p).y =
      if p.vertical_speed ≠ 0 then
        max MIN_PLAYER_Y (min MAX_PLAYER_Y (p.y + p.vertical_speed * dt))
      else p.y := by
  simp only [update_player_movement, decide_eq_true_eq]
  split_ifs <;> simp_all

theorem update_player_movement_progress (gp dt : ℚ) (p : Player)
    (h : p.move_progress < 1) :
    (update_player_movement gp dt p).move_progress =
      min 1 (p.move_progress + dt /
        (if (7:ℚ)/10 < gp then LANE_CHANGE_DURATION * (8/10) else LANE_CHANGE_DURATION)) := by
  simp only [update_player_movement, decide_eq_true_eq]
  split_ifs <;> simp_all

theorem update_player_movement_snap (gp dt : ℚ) (p : Player)
    (h : p.move_progress < 1)
    (hm : (1:ℚ) ≤ min 1 (p.move_progress + dt /
      (if (7:ℚ)/10 < gp then LANE_CHANGE_DURATION * (8/10) else LANE_CHANGE_DURATION))) :
    (update_player_movement gp dt p).lane = p.target_lane ∧
    (update_player_movement gp dt p).x = LANE_X p.target_lane := by
  simp only [update_player_movement, decide_eq_true_eq]
  split_ifs <;> simp_all

theorem update_player_movement_mid (gp dt : ℚ) (p : Player)
    (h : p.move_progress < 1)
    (hm : ¬ (1:ℚ) ≤ min 1 (p.move_progress + dt /
      (if (7:ℚ)/10 < gp then LANE_CHANGE_DURATION * (8/10) else LANE_CHANGE_DURATION))) :
    (update_player_movement gp dt p).lane = p.lane ∧
    (update_player_movement gp dt p).x =
      LANE_X p.lane + (LANE_X p.target_lane - LANE_X p.lane) *
        ease_out_back (min 1 (p.move_progress + dt /
          (if (7:ℚ)/10 < gp then LANE_CHANGE_DURATION * (8/10) else LANE_CHANGE_DURATION))) := by
  simp only [update_player_movement, decide_eq_true_eq]
  split_ifs <;> simp_all

/-- C4: while a lane transition is in progress, each tick advances the
progress by `dt / transition_duration` (the duration shrunk by the fixed
factor 0.8 once round progress exceeds 0.7), clamped to 1; the horizontal
position is `lerp(current lane center, target lane center, ease(progress))`
with the spec's back-out curve; on reaching 1 the lane becomes the target
lane and x snaps exactly to its center; and the vertical position advances by
`vertical_speed * dt` clamped to `[MIN_PLAYER_Y, MAX_PLAYER_Y]` for either
velocity sign (for a zero velocity the position is already in range). -/
theorem C4_movement (gp dt : ℚ) (p : Player) (ts mp : ℚ)
    (hts : ts = if (7:ℚ)/10 < gp then LANE_CHANGE_DURATION * (8/10) else LANE_CHANGE_DURATION)
    (hmp : mp = min 1 (p.move_progress + dt / ts)) :
    (p.move_progress < 1 →
        (update_player_movement gp dt p).move_progress = mp
      ∧ (mp < 1 → (update_player_movement gp dt p).lane = p.lane ∧
          (update_player_movement gp dt p).x =
            lerp (LANE_X p.lane) (LANE_X p.target_lane) (ease_spec_curve mp))
      ∧ (1 ≤ mp → (update_player_movement gp dt p).lane = p.target_lane ∧
          (update_player_movement gp dt p).x = LANE_X p.target_lane))
  ∧ ((p.vertical_speed ≠ 0 ∨ (MIN_PLAYER_Y ≤ p.y ∧ p.y ≤ MAX_PLAYER_Y)) →
      (update_player_movement gp dt p).y =
        max MIN_PLAYER_Y (min MAX_PLAYER_Y (p.y + p.vertical_speed * dt))) := by
  subst hts
  subst hmp
  constructor
  · intro h
    refine ⟨update_player_movement_progress gp dt p h, ?_, ?_⟩
    · intro hlt
      obtain ⟨hl, hx⟩ := update_player_movement_mid gp dt p h (not_le.mpr hlt)
      refine ⟨hl, ?_⟩
      rw [hx]
      rfl
    · intro hge
      exact update_player_movement_snap gp dt p h hge
  · intro hy
    rw [update_player_movement_y]
    by_cases hvs : p.vertical_speed ≠ 0
    · rw [if_pos hvs]
    · rw [if_neg hvs]
      push_neg at hvs
      rcases hy with hy | ⟨hy1, hy2⟩
      · exact absurd hvs hy
      · rw [hvs, zero_mul, add_zero, min_eq_right hy2, max_eq_right hy1]

/-- Witness for C4: `pW4` (progress 0, lane 1 → 0) advances to progress 1/3
with `dt = 0.1` at round progress 0. -/
theorem C4_movement_witness :
    (update_player_movement 0 (1/10) pW4).move_progress = 1/3 :=
  ((C4_movement 0 (1/10) pW4 (3/10) (1/3)
      (by norm_num [LANE_CHANGE_DURATION])
      (by norm_num [pW4])).1 (by norm_num [pW4])).1

/-! ## Input helper lemmas -/

/-- Closed form of `handle_input_player` when the game is running: the
vertical speed is set from the flags, and a transition starts exactly when
the intended lane differs from the current lane. -/
theorem handle_input_player_eq (now : ℚ) (msg : InputMsg) (p : Player) :
    handle_input_player now msg true p =
      if intended_lane now msg p ≠ p.lane then
        { p with
            vertical_speed := (if msg.up && !msg.down then -VERTICAL_SPEED
              else if msg.down && !msg.up then VERTICAL_SPEED else 0),
            target_lane := intended_lane now msg p,
            move_progress := 0,
            last_heartbeat := now }
      else
        { p with
            vertical_speed := (if msg.up && !msg.down then -VERTICAL_SPEED
              else if msg.down && !msg.up then VERTICAL_SPEED else 0),
            last_heartbeat := now } := by
  have h1 : (if msg.up && !msg.down then ({ p with vertical_speed := -VERTICAL_SPEED } : Player)
      else if msg.down && !msg.up then { p with vertical_speed := VERTICAL_SPEED }
      else { p with vertical_speed := 0 }) =
      { p with vertical_speed := (if msg.up && !msg.down then -VERTICAL_SPEED
        else if msg.down && !msg.up then VERTICAL_SPEED else 0) } := by
    split_ifs <;> rfl
  simp only [handle_input_player]
  rw [h1]
  generalize (if msg.up && !msg.down then -VERTICAL_SPEED
    else if msg.down && !msg.up then VERTICAL_SPEED else (0:ℚ)) = V
  unfold intended_lane
  simp only [Bool.and_true]
  by_cases hmp : (1:ℚ) ≤ p.move_progress
  · rw [if_pos (decide_eq_true hmp), if_pos hmp]
    by_cases hcan : (1:ℚ)/2 < now - p.last_collision_time
    · rw [decide_eq_true hcan, if_pos hcan]
      simp only [Bool.true_and]
      by_cases hL : ((msg.left && !msg.right) && decide ((0:ℤ) < p.lane)) = true
      · have hx : p.lane - 1 ≠ p.lane := by omega
        simp only [if_pos hL, if_pos hx]
      · simp only [if_neg hL]
        by_cases hR : ((msg.right && !msg.left) && decide (p.lane < 2)) = true
        · have hx : p.lane + 1 ≠ p.lane := by omega
          simp only [if_pos hR, if_pos hx]
        · have hx : ¬p.lane ≠ p.lane := by omega
          simp only [if_neg hR, if_neg hx]
    · rw [decide_eq_false hcan, if_neg hcan]
      simp only [Bool.false_and, Bool.and_false]
      have hf : ¬(false = true) := by simp
      have hx : ¬p.lane ≠ p.lane := by omega
      simp only [if_neg hf, if_neg hx]
  · rw [if_neg (by simpa using hmp), if_neg hmp]
    have hx : ¬p.lane ≠ p.lane := by omega
    simp only [if_neg hx]

theorem handle_input_player_lane_fields (now : ℚ) (msg : InputMsg) (p : Player) :
    (handle_input_player now msg true p).lane = p.lane
  ∧ (handle_input_player now msg true p).target_lane =
      (if intended_lane now msg p ≠ p.lane then intended_lane now msg p else p.target_lane)
  ∧ (handle_input_player now msg true p).move_progress =
      (if intended_lane now msg p ≠ p.lane then 0 else p.move_progress) := by
  rw [handle_input_player_eq]
  refine ⟨?_, ?_, ?_⟩ <;> split_ifs <;> rfl

theorem handle_input_player_vertical (now : ℚ) (msg : InputMsg) (p : Player) :
    (handle_input_player now msg true p).vertical_speed =
      (if msg.up = true ∧ msg.down = false then -VERTICAL_SPEED
       else if msg.down = true ∧ msg.up = false then VERTICAL_SPEED else 0) := by
  rw [handle_input_player_eq]
  obtain ⟨l, r, u, d⟩ := msg
  split_ifs <;> cases u <;> cases d <;> simp_all

theorem intended_lane_spec (now : ℚ) (msg : InputMsg) (p : Player)
    (hl0 : 0 ≤ p.lane) (hl2 : p.lane ≤ 2)
    (hne : intended_lane now msg p ≠ p.lane) :
    (1:ℚ) ≤ p.move_progress ∧ (1/2 : ℚ) ≤ now - p.last_collision_time ∧
    0 ≤ intended_lane now msg p ∧ intended_lane now msg p ≤ 2 ∧
    ((msg.left = true ∧ intended_lane now msg p = p.lane - 1) ∨
     (msg.right = true ∧ intended_lane now msg p = p.lane + 1)) := by
  by_cases hmp : (1:ℚ) ≤ p.move_progress
  · by_cases hcan : (1:ℚ)/2 < now - p.last_collision_time
    · refine ⟨hmp, le_of_lt hcan, ?_⟩
      unfold intended_lane at hne ⊢
      rw [if_pos hmp, if_pos hcan] at hne ⊢
      by_cases hL : (msg.left && !msg.right && decide ((0:ℤ) < p.lane)) = true
      · rw [if_pos hL] at hne ⊢
        have h0 : (0:ℤ) < p.lane := by
          simp only [Bool.and_eq_true, decide_eq_true_eq] at hL
          exact hL.2
        have hLL : msg.left = true := by
          simp only [Bool.and_eq_true, decide_eq_true_eq] at hL
          exact hL.1.1
        exact ⟨by omega, by omega, Or.inl ⟨hLL, rfl⟩⟩
      · rw [if_neg hL] at hne ⊢
        by_cases hR : (msg.right && !msg.left && decide (p.lane < 2)) = true
        · rw [if_pos hR] at hne ⊢
          have h2 : p.lane < 2 := by
            simp only [Bool.and_eq_true, decide_eq_true_eq] at hR
            exact hR.2
          have hRR : msg.right = true := by
            simp only [Bool.and_eq_true, decide_eq_true_eq] at hR
            exact hR.1.1
          exact ⟨by omega, by omega, Or.inr ⟨hRR, rfl⟩⟩
        · rw [if_neg hR] at hne
          exact absurd rfl hne
    · exfalso
      apply hne
      unfold intended_lane
      rw [if_pos hmp, if_neg hcan]
  · exfalso
    apply hne
    unfold intended_lane
    rw [if_neg hmp]

theorem handle_input_not_running (st : ServerState) (addr : ℕ) (m : InputMsg)
    (t2 : ℚ) (h : st.game_running = false) :
    handle_input st addr m t2 = (st, []) := by
  unfold handle_input
  rw [h]
  simp

/-- C5 (amended): for an input message from a tracked player *while the game
is running*: the vertical velocity is set from this message alone
(forward-only → negative constant, backward-only → positive constant, both or
neither → zero); the current lane is untouched; a transition starts (target
lane set, progress reset to 0) exactly when the intended lane differs from the
current lane; the intent can differ only when the previous transition is
complete and at least 0.5 s (in fact strictly more) elapsed since the last
collision, moving one lane left (floored at 0) or right (capped at 2); and an
input message while the game is not running changes nothing. -/
theorem C5_input_amended (now : ℚ) (msg : InputMsg) (p : Player)
    (hl0 : 0 ≤ p.lane) (hl2 : p.lane ≤ 2) :
    ((handle_input_player now msg true p).vertical_speed =
        (if msg.up = true ∧ msg.down = false then -VERTICAL_SPEED
         else if msg.down = true ∧ msg.up = false then VERTICAL_SPEED else 0))
  ∧ (handle_input_player now msg true p).lane = p.lane
  ∧ (handle_input_player now msg true p).target_lane =
      (if intended_lane now msg p ≠ p.lane then intended_lane now msg p else p.target_lane)
  ∧ (handle_input_player now msg true p).move_progress =
      (if intended_lane now msg p ≠ p.lane then 0 else p.move_progress)
  ∧ (intended_lane now msg p ≠ p.lane →
      (1:ℚ) ≤ p.move_progress ∧ (1/2 : ℚ) ≤ now - p.last_collision_time ∧
      0 ≤ intended_lane now msg p ∧ intended_lane now msg p ≤ 2 ∧
      ((msg.left = true ∧ intended_lane now msg p = p.lane - 1) ∨
       (msg.right = true ∧ intended_lane now msg p = p.lane + 1)))
  ∧ (∀ (st : ServerState) (addr : ℕ) (m2 : InputMsg) (t2 : ℚ),
      st.game_running = false → handle_input st addr m2 t2 = (st, [])) :=
  ⟨handle_input_player_vertical now msg p,
   (handle_input_player_lane_fields now msg p).1,
   (handle_input_player_lane_fields now msg p).2.1,
   (handle_input_player_lane_fields now msg p).2.2,
   intended_lane_spec now msg p hl0 hl2,
   fun st addr m2 t2 h => handle_input_not_running st addr m2 t2 h⟩

/-- Witness for C5: the settled player `pW5` pressing left at time 1. -/
theorem C5_input_witness :
    (handle_input_player 1 { left := true, right := false, up := false, down := false }
        true pW5).target_lane =
      (if intended_lane 1 { left := true, right := false, up := false, down := false } pW5
          ≠ pW5.lane
       then intended_lane 1 { left := true, right := false, up := false, down := false } pW5
       else pW5.target_lane) :=
  (C5_input_amended 1 { left := true, right := false, up := false, down := false } pW5
    (by norm_num [pW5]) (by norm_num [pW5])).2.2.1

/-- Counterexample to C5 as stated: while the game is not running, an input
message from the tracked player `pCX5` (vertical speed 55) with the forward
flag set changes nothing at all — in particular the vertical velocity is not
set to the negative vertical speed constant. -/
theorem C5_input_counterexample :
    lookup_addr stCX5.players 3 = some pCX5 ∧
    handle_input stCX5 3 { left := false, right := false, up := true, down := false } 1 =
      (stCX5, []) ∧
    pCX5.vertical_speed ≠ -VERTICAL_SPEED := by
  refine ⟨rfl, ?_, by norm_num [pCX5, VERTICAL_SPEED]⟩
  exact handle_input_not_running stCX5 3 _ 1 rfl

/-! ## Client sequence-filter lemmas -/

theorem apply_player_info_last_seq (cs : ClientState) (info : PlayerInfo) :
    (apply_player_info cs info).last_seq = cs.last_seq := rfl

theorem foldl_apply_player_info_last_seq (infos : List PlayerInfo) :
    ∀ cs : ClientState, (infos.foldl apply_player_info cs).last_seq = cs.last_seq := by
  induction infos with
  | nil => intro cs; rfl
  | cons i l ih =>
    intro cs
    rw [List.foldl_cons, ih]
    rfl

theorem process_state_stale (cs : ClientState) (msg : StateMsg)
    (h : msg.seq ≤ cs.last_seq) : process_state cs msg = cs := by
  unfold process_state
  rw [if_pos (decide_eq_true h)]

theorem process_state_fresh_seq (cs : ClientState) (msg : StateMsg)
    (h : cs.last_seq < msg.seq) : (process_state cs msg).last_seq = msg.seq := by
  unfold process_state
  rw [if_neg (by simpa using not_le.mpr h)]
  show (List.foldl apply_player_info _ msg.players).last_seq = msg.seq
  rw [foldl_apply_player_info_last_seq]

/-- C6: a state message whose sequence number is at most the last-seen one is
discarded with no change to any client state; a fresh one updates the
last-seen sequence number to its own; consequently, after applying a message
with sequence s2, a later-arriving message with sequence s1 < s2 is a no-op. -/
theorem C6_sequence_filter :
    (∀ (cs : ClientState) (msg : StateMsg), msg.seq ≤ cs.last_seq →
        process_state cs msg = cs)
  ∧ (∀ (cs : ClientState) (msg : StateMsg), cs.last_seq < msg.seq →
        (process_state cs msg).last_seq = msg.seq)
  ∧ (∀ (cs : ClientState) (m2 m1 : StateMsg), cs.last_seq < m2.seq → m1.seq < m2.seq →
        process_state (process_state cs m2) m1 = process_state cs m2) := by
  refine ⟨process_state_stale, process_state_fresh_seq, ?_⟩
  intro cs m2 m1 h2 h12
  apply process_state_stale
  rw [process_state_fresh_seq cs m2 h2]
  exact le_of_lt h12

/-- Witness for C6: the client at sequence 5 drops the stale message with
sequence 3. -/
theorem C6_sequence_filter_witness : process_state csW6 msgW6 = csW6 :=
  C6_sequence_filter.1 csW6 msgW6 (by norm_num [csW6, msgW6])

/-! ## Join/session lemmas -/

theorem find?_map_key (addr : ℕ) (f : Player → Player) :
    ∀ l : List (ℕ × Player),
      (l.map (fun e => if e.1 == addr then (e.1, f e.2) else e)).find?
          (fun e => e.1 == addr)
        = (l.find? (fun e => e.1 == addr)).map (fun e => (e.1, f e.2)) := by
  intro l
  induction l with
  | nil => rfl
  | cons a l ih =>
    by_cases h : (a.1 == addr) = true
    · simp [List.find?, h]
    · simp only [List.map_cons, List.find?, h, if_neg]
      rw [if_neg (by simp [h])]
      simp only [h]
      exact ih

theorem map_update_of_none (addr : ℕ) (f : Player → Player) :
    ∀ l : List (ℕ × Player),
      l.find? (fun e => e.1 == addr) = none →
      l.map (fun e => if e.1 == addr then (e.1, f e.2) else e) = l := by
  intro l
  induction l with
  | nil => intro _; rfl
  | cons a l ih =>
    intro h
    rw [List.find?_cons] at h
    by_cases ha : (a.1 == addr) = true
    · rw [ha] at h
      cases h
    · rw [Bool.eq_false_iff.mpr ha] at h
      rw [List.map_cons, if_neg (by simpa using ha), ih h]

theorem find?_map_join (addr : ℕ) (nm : String) (nowq : ℚ) (l : List (ℕ × Player)) :
    (l.map (fun e2 => if e2.1 == addr then
        (e2.1, { e2.2 with name := nm, last_heartbeat := nowq }) else e2)).find?
      (fun e => e.1 == addr)
    = (l.find? (fun e => e.1 == addr)).map
        (fun e => (e.1, { e.2 with name := nm, last_heartbeat := nowq })) :=
  find?_map_key addr (fun q => { q with name := nm, last_heartbeat := nowq }) l

theorem map_heartbeat_of_none (addr : ℕ) (nowq : ℚ) (l : List (ℕ × Player))
    (h : l.find? (fun e => e.1 == addr) = none) :
    l.map (fun e => if e.1 == addr then
      (e.1, { e.2 with last_heartbeat := nowq }) else e) = l :=
  map_update_of_none addr (fun q => { q with last_heartbeat := nowq }) l h

theorem find?_append_none {α : Type} (p : α → Bool) :
    ∀ (l1 l2 : List α), l1.find? p = none → (l1 ++ l2).find? p = l2.find? p := by
  intro l1 l2
  induction l1 with
  | nil => intro _; rfl
  | cons a l ih =>
    intro h
    rw [List.find?_cons] at h
    by_cases ha : p a = true
    · rw [ha] at h
      cases h
    · rw [Bool.eq_false_iff.mpr ha] at h
      rw [List.cons_append, List.find?_cons, Bool.eq_false_iff.mpr ha]
      exact ih h

/-- C7: a join from a tracked address updates only that player's name
(truncated to 20 characters) and activity timestamp and answers with the
existing id, leaving the id counter, every other player and the rest of the
server state unchanged; a join from a new address allocates the next id
(incrementing the counter), creates a player in the middle lane at the
default position, keeps every existing player, and answers with the new id. -/
theorem C7_join (st : ServerState) (addr : ℕ) (raw_name : String) (now : ℚ) :
    (∀ p, lookup_addr st.players addr = some p →
        (handle_join st addr raw_name now).2 = p.id
      ∧ lookup_addr (handle_join st addr raw_name now).1.players addr =
          some { p with name := raw_name.take 20, last_heartbeat := now }
      ∧ (handle_join st addr raw_name now).1.next_player_id = st.next_player_id
      ∧ (∀ e ∈ st.players, e.1 ≠ addr → e ∈ (handle_join st addr raw_name now).1.players)
      ∧ (handle_join st addr raw_name now).1.game_running = st.game_running
      ∧ (handle_join st addr raw_name now).1.start_time = st.start_time
      ∧ (handle_join st addr raw_name now).1.obstacles = st.obstacles
      ∧ (handle_join st addr raw_name now).1.state_sequence = st.state_sequence)
  ∧ (lookup_addr st.players addr = none →
        (handle_join st addr raw_name now).2 = st.next_player_id
      ∧ (handle_join st addr raw_name now).1.next_player_id = st.next_player_id + 1
      ∧ lookup_addr (handle_join st addr raw_name now).1.players addr =
          some (new_player (raw_name.take 20) st.next_player_id now)
      ∧ (∀ e ∈ st.players, e ∈ (handle_join st addr raw_name now).1.players)
      ∧ (new_player (raw_name.take 20) st.next_player_id now).lane = 1
      ∧ (new_player (raw_name.take 20) st.next_player_id now).x = LANE_X 1
      ∧ (new_player (raw_name.take 20) st.next_player_id now).y = PLAYER_Y
      ∧ (new_player (raw_name.take 20) st.next_player_id now).id = st.next_player_id) := by
  constructor
  · intro p hp
    unfold lookup_addr at hp
    obtain ⟨e, he, hep⟩ := Option.map_eq_some'.mp hp
    unfold handle_join
    simp only [he]
    refine ⟨by rw [hep], ?_, trivial, ?_, trivial, trivial, trivial, trivial⟩
    · unfold lookup_addr
      rw [find?_map_join addr (raw_name.take 20) now st.players, he]
      simp [hep]
    · intro e2 he2 hne
      refine List.mem_map.mpr ⟨e2, he2, ?_⟩
      rw [if_neg (by simpa using hne)]
  · intro hn
    unfold lookup_addr at hn
    have hfind : st.players.find? (fun e => e.1 == addr) = none :=
      Option.map_eq_none'.mp hn
    unfold handle_join
    rw [hfind]
    refine ⟨rfl, rfl, ?_, ?_, rfl, rfl, rfl, rfl⟩
    · unfold lookup_addr
      rw [find?_append_none _ _ _ hfind]
      simp [List.find?]
    · intro e2 he2
      exact List.mem_append_left _ he2

/-- Witness for C7: the server `stW7` tracks `pW2` at address 2; a repeated
join from address 2 answers with `pW2`'s id. -/
theorem C7_join_witness :
    (handle_join stW7 2 "Bob" 1).2 = pW2.id :=
  ((C7_join stW7 2 "Bob" 1).1 pW2 rfl).1

/-! ## Lane/progress bounds (C8) -/

/-- C8: the bounds `lane ∈ {0,1,2}`, `target_lane ∈ {0,1,2}` and
`move_progress ∈ [0,1]` hold for a freshly joined player and are preserved by
input handling, by per-tick movement (for a nonnegative tick delta) and by the
between-round reset. -/
theorem C8_bounds :
    (∀ name pid now, player_bounds (new_player name pid now))
  ∧ (∀ now msg p, player_bounds p → player_bounds (handle_input_player now msg true p))
  ∧ (∀ gp dt p, 0 ≤ dt → player_bounds p → player_bounds (update_player_movement gp dt p))
  ∧ (∀ now p, player_bounds (reset_player now p)) := by
  refine ⟨?_, ?_, ?_, ?_⟩
  · intro name pid now
    unfold player_bounds new_player
    norm_num
  · intro now msg p hp
    obtain ⟨h1, h2, h3, h4, h5, h6⟩ := hp
    rw [player_bounds, handle_input_player_eq]
    by_cases hne : intended_lane now msg p ≠ p.lane
    · rw [if_pos hne]
      obtain ⟨_, _, hi0, hi2, _⟩ := intended_lane_spec now msg p h1 h2 hne
      exact ⟨h1, h2, hi0, hi2, le_refl 0, by norm_num⟩
    · rw [if_neg hne]
      exact ⟨h1, h2, h3, h4, h5, h6⟩
  · intro gp dt p hdt hp
    obtain ⟨h1, h2, h3, h4, h5, h6⟩ := hp
    by_cases hm : p.move_progress < 1
    · have hts : (0:ℚ) < (if (7:ℚ)/10 < gp then LANE_CHANGE_DURATION * (8/10)
          else LANE_CHANGE_DURATION) := by
        split_ifs <;> norm_num [LANE_CHANGE_DURATION]
      have hmp0 : 0 ≤ min 1 (p.move_progress + dt /
          (if (7:ℚ)/10 < gp then LANE_CHANGE_DURATION * (8/10) else LANE_CHANGE_DURATION)) :=
        le_min (by norm_num) (add_nonneg h5 (div_nonneg hdt (le_of_lt hts)))
      have hmp1 : min 1 (p.move_progress + dt /
          (if (7:ℚ)/10 < gp then LANE_CHANGE_DURATION * (8/10) else LANE_CHANGE_DURATION)) ≤ 1 :=
        min_le_left _ _
      have hprog := update_player_movement_progress gp dt p hm
      by_cases hmge : (1:ℚ) ≤ min 1 (p.move_progress + dt /
          (if (7:ℚ)/10 < gp then LANE_CHANGE_DURATION * (8/10) else LANE_CHANGE_DURATION))
      · obtain ⟨hl, _⟩ := update_player_movement_snap gp dt p hm hmge
        have htl : (update_player_movement gp dt p).target_lane = p.target_lane := by
          simp only [update_player_movement, decide_eq_true_eq]
          split_ifs <;> simp_all
        rw [player_bounds, hl, htl, hprog]
        exact ⟨h3, h4, h3, h4, hmp0, hmp1⟩
      · obtain ⟨hl, _⟩ := update_player_movement_mid gp dt p hm hmge
        have htl : (update_player_movement gp dt p).target_lane = p.target_lane := by
          simp only [update_player_movement, decide_eq_true_eq]
          split_ifs <;> simp_all
        rw [player_bounds, hl, htl, hprog]
        exact ⟨h1, h2, h3, h4, hmp0, hmp1⟩
    · have heq : ∀ q : Player, q = update_player_movement gp dt p →
          q.lane = p.lane ∧ q.target_lane = p.target_lane ∧
          q.move_progress = p.move_progress := by
        intro q hq
        subst hq
        simp only [update_player_movement, decide_eq_true_eq]
        split_ifs <;> simp_all
      obtain ⟨hl, htl, hpr⟩ := heq _ rfl
      rw [player_bounds, hl, htl, hpr]
      exact ⟨h1, h2, h3, h4, h5, h6⟩
  · intro now p
    unfold player_bounds reset_player
    norm_num

/-- Witness for C8: the mid-transition player `pW4` keeps its bounds through
one movement tick. -/
theorem C8_bounds_witness :
    player_bounds (update_player_movement 0 (1/10) pW4) :=
  C8_bounds.2.2.1 0 (1/10) pW4 (by norm_num)
    (by unfold player_bounds pW4; norm_num)

/-! ## Round-end check (C9) -/

/-- C9 (amended): with no start timestamp the round-end check returns false;
once the round started at `s`, it returns true exactly when the elapsed time
reaches the computed duration, or when at least one player is joined and
every joined player has finished (with no players joined and time remaining
it returns false, despite the vacuous truth of the universal statement). -/
theorem C9_game_end (st : ServerState) (current_time : ℚ) :
    (st.start_time = none → check_game_end st current_time = false)
  ∧ (∀ s, st.start_time = some s →
      (check_game_end st current_time = true ↔
        (st.GAME_DURATION ≤ current_time - s ∨
         (st.players ≠ [] ∧ ∀ e ∈ st.players, e.2.finished = true)))) := by
  constructor
  · intro h
    unfold check_game_end
    rw [h]
  · intro s hs
    unfold check_game_end
    simp only [hs]
    by_cases hd : st.GAME_DURATION ≤ current_time - s
    · rw [if_pos (decide_eq_true hd)]
      simp [hd]
    · rw [if_neg (by simpa using hd)]
      constructor
      · intro h
        split_ifs at h with hc
        · right
          simp only [Bool.and_eq_true, Bool.not_eq_true'] at hc
          obtain ⟨hf, hne⟩ := hc
          constructor
          · intro hnil
            rw [hnil] at hne
            simp at hne
          · intro e he
            have hfe : st.players.filter (fun e => !e.2.finished) = [] :=
              List.isEmpty_iff.mp hf
            have := List.filter_eq_nil_iff.mp hfe e he
            simpa using this
      · intro h
        rcases h with h | ⟨hne, hall⟩
        · exact absurd h hd
        · have hcond : ((st.players.filter (fun e => !e.2.finished)).isEmpty &&
              !st.players.isEmpty) = true := by
            rw [Bool.and_eq_true]
            constructor
            · apply List.isEmpty_iff.mpr
              apply List.filter_eq_nil_iff.mpr
              intro e he
              simp [hall e he]
            · rcases hp : st.players with _ | ⟨a, l⟩
              · exact absurd hp hne
              · rfl
          rw [if_pos hcond]

/-- Witness for C9: the round of `stW7` (duration 40, started at 0) has ended
by time 50. -/
theorem C9_game_end_witness : check_game_end stW7 50 = true :=
  ((C9_game_end stW7 50).2 0 rfl).mpr (Or.inl (by norm_num [stW7]))

/-- Counterexample to C9 as stated: mid-round (time 1 of 40) with no joined
players, every currently-joined player has (vacuously) finished, yet the
check returns false. -/
theorem C9_game_end_counterexample :
    check_game_end stCX9 1 = false ∧
    stCX9.players.all (fun e => e.2.finished) = true ∧
    ¬ stCX9.GAME_DURATION ≤ (1:ℚ) - 0 ∧
    stCX9.start_time = some 0 := by
  refine ⟨?_, rfl, ?_, rfl⟩
  · norm_num [check_game_end, stCX9]
  · norm_num [stCX9]

/-! ## Unknown-address traffic (C10) -/

/-- C10 (amended): traffic from an address with no tracked player changes no
player or session state; an input message gets no reaction at all, while a
heartbeat — although it changes nothing — is still answered with a
`heartbeat_ack` to the unknown sender. -/
theorem C10_unknown_address (st : ServerState) (addr : ℕ) (nowq : ℚ) (msg : InputMsg)
    (h : lookup_addr st.players addr = none) :
    handle_input st addr msg nowq = (st, [])
  ∧ (handle_heartbeat st addr nowq).1 = st
  ∧ (handle_heartbeat st addr nowq).2 = [(addr, OutMsg.heartbeat_ack)] := by
  have hfind : st.players.find? (fun e => e.1 == addr) = none :=
    Option.map_eq_none'.mp h
  refine ⟨?_, ?_, rfl⟩
  · unfold handle_input
    rw [hfind]
    simp
  · show ({ st with players := st.players.map (fun e =>
        if e.1 == addr then (e.1, { e.2 with last_heartbeat := nowq }) else e) } :
        ServerState) = st
    rw [map_heartbeat_of_none addr nowq st.players hfind]

/-- Witness for C10: an input message from the unknown address 7 is fully
ignored by `stCX10`. -/
theorem C10_unknown_address_witness :
    handle_input stCX10 7 { left := false, right := false, up := false, down := false } 1 =
      (stCX10, []) :=
  (C10_unknown_address stCX10 7 1
    { left := false, right := false, up := false, down := false } rfl).1

/-- Counterexample to C10 as stated: the server does react to a heartbeat
from the unknown address 7 — it sends a `heartbeat_ack` back. -/
theorem C10_unknown_address_counterexample :
    lookup_addr stCX10.players 7 = none ∧
    (handle_heartbeat stCX10 7 1).2 = [(7, OutMsg.heartbeat_ack)] ∧
    (handle_heartbeat stCX10 7 1).2 ≠ [] := by
  refine ⟨rfl, rfl, by simp [handle_heartbeat]⟩

end LanRacer
